import Mathlib

/-!
Verification of the URL-to-presentation pipeline (backend/workflow.py,
backend/narration.py, backend/video_gen.py, backend/server.py).

The Python sources are shallowly embedded: the string processing is
translated to executable Lean functions, the stateful pipeline nodes become
functions on an explicit `WorkflowState`, and the external collaborators
(language model, transcript service, HTTP fetch, filesystem) are passed in
as explicit outcome values, since the pipeline only branches on their
results.  Python's `str` maps to `String` (both sequences of code points,
so `len`, slicing and concatenation agree), `str(int)` to `decRepr`,
`str.strip` to `pyStrip`, `str.split(sep)` to `pySplit`, slicing `[:n]` to
`pySlice`, and `json.loads` / `json.dumps` to `jsonLoads` / `jsonDumps`
below.
-/

/- ## Python string primitives -/

/-- Whitespace for Python's `str.strip()` (the ASCII part). -/
def pyWs (c : Char) : Bool :=
  c = ' ' || c = '\t' || c = '\n' || c = '\r' || c = '\x0b' || c = '\x0c'

/-- Drop trailing Python whitespace. -/
def dropTrailWs (cs : List Char) : List Char :=
  (cs.reverse.dropWhile pyWs).reverse

/-- Python `str.strip()` on the underlying character list. -/
def stripList (cs : List Char) : List Char :=
  (dropTrailWs cs).dropWhile pyWs

/-- Python `str.strip()`. -/
def pyStrip (s : String) : String := ⟨stripList s.data⟩

/-- Python slicing `s[:n]`. -/
def pySlice (n : Nat) (s : String) : String := ⟨s.data.take n⟩

/-- The decimal digit characters, for `str(int)`. -/
def digitChar : Nat → Char
  | 0 => '0' | 1 => '1' | 2 => '2' | 3 => '3' | 4 => '4'
  | 5 => '5' | 6 => '6' | 7 => '7' | 8 => '8' | _ => '9'

/-- Fuelled decimal printer; with fuel above `n` it prints `n` in base 10. -/
def decReprAux : Nat → Nat → List Char
  | 0, _ => []
  | f + 1, n => if n < 10 then [digitChar n] else decReprAux f (n / 10) ++ [digitChar (n % 10)]

/-- Python `str(n)` for a natural number. -/
def decRepr (n : Nat) : String := ⟨decReprAux (n + 1) n⟩

/-- Index of the first occurrence of `sep` as a contiguous sublist, if any. -/
def findSubIdx (sep : List Char) : List Char → Option Nat
  | [] => none
  | c :: rest =>
    if sep.isPrefixOf (c :: rest) then some 0
    else (findSubIdx sep rest).map (· + 1)

/-- Fuelled worker for `pySplit`; the fuel dominates the number of
separator occurrences, so `length + 1` is always enough. -/
def pySplitAux (sep : List Char) : Nat → List Char → List (List Char)
  | 0, cs => [cs]
  | f + 1, cs =>
    match findSubIdx sep cs with
    | none => [cs]
    | some i => cs.take i :: pySplitAux sep f (cs.drop (i + sep.length))

/-- Python `s.split(sep)` for a non-empty separator. -/
def pySplit (s sep : String) : List String :=
  (pySplitAux sep.data (s.data.length + 1) s.data).map (fun cs => (⟨cs⟩ : String))

/-- Whether `pat` occurs inside `s`; models `re.search` on a literal pattern. -/
def strContains (s pat : String) : Bool := (findSubIdx pat.data s.data).isSome

/- ## JSON values, parser (`json.loads`) and serializer (`json.dumps`) -/

/-- JSON values as produced by `json.loads`.  Numbers keep their source
lexeme (first character plus remainder) instead of a float value: the
pipeline never does arithmetic on parsed numbers, only re-serialization and
truthiness tests, and both are functions of the lexeme. -/
inductive Json where
  | null : Json
  | bool (b : Bool) : Json
  | num (first : Char) (rest : String) : Json
  | str (s : String) : Json
  | arr (elems : List Json) : Json
  | obj (members : List (String × Json)) : Json
deriving Repr

/-- JSON whitespace as accepted by Python's `json` module. -/
def jsonWs (c : Char) : Bool := c = ' ' || c = '\t' || c = '\n' || c = '\r'

/-- Skip JSON whitespace. -/
def skipWs (cs : List Char) : List Char := cs.dropWhile jsonWs

/-- Value of a hexadecimal digit. -/
def hexVal (c : Char) : Option Nat :=
  if '0' ≤ c ∧ c ≤ '9' then some (c.toNat - 48)
  else if 'a' ≤ c ∧ c ≤ 'f' then some (c.toNat - 87)
  else if 'A' ≤ c ∧ c ≤ 'F' then some (c.toNat - 55)
  else none

/-- Body of a JSON string after the opening quote, accumulating into `acc`
(reversed).  Mirrors Python's strict scanner: raw control characters are
rejected, the eight short escapes and `\uXXXX` are accepted, and a high
surrogate must be followed by a low surrogate (Lean's `Char` cannot carry
the lone surrogates Python tolerates, so those are rejected). -/
def parseStrBody : List Char → List Char → Option (String × List Char)
  | acc, '"' :: rest => some (⟨acc.reverse⟩, rest)
  | acc, '\\' :: 'u' :: a :: b :: c :: d :: rest =>
    match hexVal a, hexVal b, hexVal c, hexVal d with
    | some va, some vb, some vc, some vd =>
      let code := va * 4096 + vb * 256 + vc * 16 + vd
      if code < 0xD800 ∨ 0xE000 ≤ code then
        parseStrBody (Char.ofNat code :: acc) rest
      else if code < 0xDC00 then
        match rest with
        | '\\' :: 'u' :: a2 :: b2 :: c2 :: d2 :: rest2 =>
          match hexVal a2, hexVal b2, hexVal c2, hexVal d2 with
          | some wa, some wb, some wc, some wd =>
            let lo := wa * 4096 + wb * 256 + wc * 16 + wd
            if 0xDC00 ≤ lo ∧ lo < 0xE000 then
              parseStrBody
                (Char.ofNat (0x10000 + (code - 0xD800) * 0x400 + (lo - 0xDC00)) :: acc) rest2
            else none
          | _, _, _, _ => none
        | _ => none
      else none
    | _, _, _, _ => none
  | acc, '\\' :: e :: rest =>
    if e = '"' then parseStrBody ('"' :: acc) rest
    else if e = '\\' then parseStrBody ('\\' :: acc) rest
    else if e = '/' then parseStrBody ('/' :: acc) rest
    else if e = 'b' then parseStrBody ('\x08' :: acc) rest
    else if e = 'f' then parseStrBody ('\x0c' :: acc) rest
    else if e = 'n' then parseStrBody ('\n' :: acc) rest
    else if e = 'r' then parseStrBody ('\r' :: acc) rest
    else if e = 't' then parseStrBody ('\t' :: acc) rest
    else none
  | acc, c :: rest =>
    if c.toNat < 0x20 then none else parseStrBody (c :: acc) rest
  | _, [] => none

/-- Longest prefix of decimal digits, with the remainder. -/
def takeDigits (cs : List Char) : List Char × List Char :=
  (cs.takeWhile Char.isDigit, cs.dropWhile Char.isDigit)

/-- The integer part of a JSON number: `0` or a nonzero digit followed by
digits (leading zeros are rejected, as in Python's `json`). -/
def parseIntPart : List Char → Option (List Char × List Char)
  | '0' :: rest => some (['0'], rest)
  | c :: rest =>
    if c.isDigit then
      let (ds, rest2) := takeDigits rest
      some (c :: ds, rest2)
    else none
  | [] => none

/-- Optional fraction part `.digits`. -/
def parseFracPart (cs : List Char) : Option (List Char × List Char) :=
  match cs with
  | '.' :: r =>
    let (ds, r2) := takeDigits r
    if ds.isEmpty then none else some ('.' :: ds, r2)
  | _ => some ([], cs)

/-- Optional exponent part `[eE][+-]?digits`. -/
def parseExpPart (cs : List Char) : Option (List Char × List Char) :=
  match cs with
  | e :: r =>
    if e = 'e' ∨ e = 'E' then
      match r with
      | s :: r2 =>
        if s = '+' ∨ s = '-' then
          let (ds, r3) := takeDigits r2
          if ds.isEmpty then none else some (e :: s :: ds, r3)
        else
          let (ds, r3) := takeDigits r
          if ds.isEmpty then none else some (e :: ds, r3)
      | [] => none
    else some ([], cs)
  | [] => some ([], cs)

/-- Lexeme of a JSON number token starting at `cs`. -/
def parseNumLexeme (cs : List Char) : Option (List Char × List Char) :=
  match cs with
  | '-' :: rest =>
    match parseIntPart rest with
    | none => none
    | some (ip, r1) =>
      match parseFracPart r1 with
      | none => none
      | some (fp, r2) =>
        match parseExpPart r2 with
        | none => none
        | some (ep, r3) => some ('-' :: ip ++ fp ++ ep, r3)
  | _ =>
    match parseIntPart cs with
    | none => none
    | some (ip, r1) =>
      match parseFracPart r1 with
      | none => none
      | some (fp, r2) =>
        match parseExpPart r2 with
        | none => none
        | some (ep, r3) => some (ip ++ fp ++ ep, r3)

/-- Replace the value at `k` if present, keeping its position (Python dict
assignment), else append. -/
def insertKV : List (String × Json) → String → Json → List (String × Json)
  | [], k, v => [(k, v)]
  | (k', v') :: rest, k, v =>
    if k' = k then (k', v) :: rest else (k', v') :: insertKV rest k v

mutual

/-- Fuelled recursive-descent JSON value parser. -/
def parseValue : Nat → List Char → Option (Json × List Char)
  | 0, _ => none
  | f + 1, cs =>
    match skipWs cs with
    | '{' :: rest => parseObjBody f (skipWs rest)
    | '[' :: rest => parseArrBody f (skipWs rest)
    | '"' :: rest => (parseStrBody [] rest).map (fun p => (Json.str p.1, p.2))
    | 't' :: 'r' :: 'u' :: 'e' :: rest => some (Json.bool true, rest)
    | 'f' :: 'a' :: 'l' :: 's' :: 'e' :: rest => some (Json.bool false, rest)
    | 'n' :: 'u' :: 'l' :: 'l' :: rest => some (Json.null, rest)
    | 'N' :: 'a' :: 'N' :: rest => some (Json.num 'N' "aN", rest)
    | 'I' :: 'n' :: 'f' :: 'i' :: 'n' :: 'i' :: 't' :: 'y' :: rest =>
      some (Json.num 'I' "nfinity", rest)
    | '-' :: 'I' :: 'n' :: 'f' :: 'i' :: 'n' :: 'i' :: 't' :: 'y' :: rest =>
      some (Json.num '-' "Infinity", rest)
    | other =>
      match parseNumLexeme other with
      | some (c :: ds, rest) => some (Json.num c ⟨ds⟩, rest)
      | _ => none

/-- Object body after the opening brace (whitespace already skipped). -/
def parseObjBody : Nat → List Char → Option (Json × List Char)
  | 0, _ => none
  | _ + 1, '}' :: rest => some (Json.obj [], rest)
  | f + 1, cs => parseMembers f cs []

/-- Members of an object, expecting a key at `cs`. -/
def parseMembers : Nat → List Char → List (String × Json) → Option (Json × List Char)
  | 0, _, _ => none
  | f + 1, '"' :: rest, acc =>
    match parseStrBody [] rest with
    | none => none
    | some (k, r1) =>
      match skipWs r1 with
      | ':' :: r2 =>
        match parseValue f r2 with
        | none => none
        | some (v, r3) =>
          match skipWs r3 with
          | ',' :: r4 => parseMembers f (skipWs r4) (insertKV acc k v)
          | '}' :: r4 => some (Json.obj (insertKV acc k v), r4)
          | _ => none
      | _ => none
  | _ + 1, _, _ => none

/-- Array body after the opening bracket (whitespace already skipped). -/
def parseArrBody : Nat → List Char → Option (Json × List Char)
  | 0, _ => none
  | _ + 1, ']' :: rest => some (Json.arr [], rest)
  | f + 1, cs => parseElems f cs []

/-- Elements of an array, expecting a value at `cs`. -/
def parseElems : Nat → List Char → List Json → Option (Json × List Char)
  | 0, _, _ => none
  | f + 1, cs, acc =>
    match parseValue f cs with
    | none => none
    | some (v, r1) =>
      match skipWs r1 with
      | ',' :: r2 => parseElems f (skipWs r2) (acc ++ [v])
      | ']' :: r2 => some (Json.arr (acc ++ [v]), r2)
      | _ => none

end

/-- Python `json.loads`: parse one JSON value and require only whitespace
after it.  The fuel `2 * length + 2` dominates the recursion depth, each
unit of which consumes input. -/
def jsonLoads (s : String) : Option Json :=
  match parseValue (2 * s.data.length + 2) s.data with
  | some (j, rest) => if skipWs rest = [] then some j else none
  | none => none

/-- Hexadecimal digit character. -/
def hexDigitChar (n : Nat) : Char := if n < 10 then digitChar n else Char.ofNat (87 + n)

/-- Four-digit lowercase hex, for `\uXXXX` escapes. -/
def toHex4 (n : Nat) : List Char :=
  [hexDigitChar (n / 4096 % 16), hexDigitChar (n / 256 % 16),
   hexDigitChar (n / 16 % 16), hexDigitChar (n % 16)]

/-- Escape one character the way `json.dumps` (ensure_ascii) does. -/
def escChar (c : Char) : List Char :=
  if c = '"' then ['\\', '"']
  else if c = '\\' then ['\\', '\\']
  else if c = '\n' then ['\\', 'n']
  else if c = '\r' then ['\\', 'r']
  else if c = '\t' then ['\\', 't']
  else if c = '\x08' then ['\\', 'b']
  else if c = '\x0c' then ['\\', 'f']
  else if c.toNat < 0x20 then '\\' :: 'u' :: toHex4 c.toNat
  else if c.toNat < 0x7f then [c]
  else if c.toNat < 0x10000 then '\\' :: 'u' :: toHex4 c.toNat
  else
    let n := c.toNat - 0x10000
    '\\' :: 'u' :: toHex4 (0xD800 + n / 0x400) ++ '\\' :: 'u' :: toHex4 (0xDC00 + n % 0x400)

/-- Serialize a string literal the way `json.dumps` does. -/
def dumpString (s : String) : String := ⟨'"' :: (s.data.map escChar).flatten ++ ['"']⟩

mutual

/-- Python `json.dumps` with default separators. -/
def jsonDumps : Json → String
  | Json.null => "null"
  | Json.bool true => "true"
  | Json.bool false => "false"
  | Json.num c r => ⟨c :: r.data⟩
  | Json.str s => dumpString s
  | Json.arr xs => "[" ++ dumpsElems xs ++ "]"
  | Json.obj ms => "\x7b" ++ dumpsMembers ms ++ "\x7d"

/-- Comma-separated serialization of array elements. -/
def dumpsElems : List Json → String
  | [] => ""
  | [x] => jsonDumps x
  | x :: y :: rest => jsonDumps x ++ ", " ++ dumpsElems (y :: rest)

/-- Comma-separated serialization of object members. -/
def dumpsMembers : List (String × Json) → String
  | [] => ""
  | [(k, v)] => dumpString k ++ ": " ++ jsonDumps v
  | (k, v) :: m :: rest => dumpString k ++ ": " ++ jsonDumps v ++ ", " ++ dumpsMembers (m :: rest)

end

/-- First-match association lookup; `insertKV` keeps keys unique, so this is
Python `dict.get` on parser output. -/
def lookupKV : List (String × Json) → String → Option Json
  | [], _ => none
  | (k', v) :: rest, k => if k' = k then some v else lookupKV rest k

/-- Python `d.get(k)` on a parsed JSON value (callers only apply it to
objects; on anything else attribute access would raise, which the callers
below surface as a raised-exception result). -/
def jsonGet : Json → String → Option Json
  | Json.obj ms, k => lookupKV ms k
  | _, _ => none

/-- Python truthiness of a parsed JSON value.  For numbers the value is
zero exactly when the mantissa of the lexeme has no nonzero digit
(`NaN`/`Infinity` are truthy). -/
def pythonTruthy : Json → Bool
  | Json.null => false
  | Json.bool b => b
  | Json.num c r =>
    ((c :: r.data).takeWhile (fun x => !(x == 'e' || x == 'E'))).any
      (fun x => ('1' ≤ x && x ≤ '9') || x == 'N' || x == 'I')
  | Json.str s => !(s == "")
  | Json.arr xs => !xs.isEmpty
  | Json.obj ms => !ms.isEmpty

/-- Python slicing `v[:n]` on a JSON value: defined on strings and lists,
a `TypeError` (`none`) on anything else. -/
def jsonSliceVal (n : Nat) : Json → Option Json
  | Json.str s => some (Json.str (pySlice n s))
  | Json.arr xs => some (Json.arr (xs.take n))
  | _ => none

/-- The span matched by `re.search` with a greedy brace pattern, as in
`refine_content`: from the first opening brace to the last closing brace
after it. -/
def jsonSpan (s : String) : Option String :=
  let cs := s.data
  match cs.findIdx? (fun c => c = '{') with
  | none => none
  | some i =>
    match cs.reverse.findIdx? (fun c => c = '}') with
    | none => none
    | some k =>
      let j := cs.length - 1 - k
      if i < j then some ⟨(cs.drop i).take (j - i + 1)⟩ else none

/- ## Workflow data model (backend/workflow.py) -/

/-- One slide record.  `title` is a `Json` value because the structured
branch stores whatever value the parsed object carries; plain strings
appear as `Json.str`.  `none` in an optional field means the key is absent
from the Python dict. -/
structure Slide where
  type : String
  title : Json
  subtitle : Option Json := none
  content : Option Json := none
  slide_number : Option Nat := none
deriving Repr

/-- The LangGraph `WorkflowState`. -/
structure WorkflowState where
  url : String
  url_type : String
  raw_content : String
  title : Json
  refined_content : String
  presentation_slides : List Slide
  error : Option String
deriving Repr

/-- Truthiness of the `Optional[str]` error field (`None` and the empty
string are falsy). -/
def optStrTruthy : Option String → Bool
  | none => false
  | some s => !(s == "")

/-- The YouTube URL patterns of `detect_url_type` (all-literal regexes). -/
def youtubePatterns : List String :=
  ["youtube.com/watch?v=", "youtu.be/", "youtube.com/embed/", "youtube.com/v/",
   "youtube.com/shorts/"]

/-- Whether any YouTube pattern occurs in the URL. -/
def isYoutubeUrl (url : String) : Bool := youtubePatterns.any (fun p => strContains url p)

/-- Router node `detect_url_type`. -/
def detectUrlType (st : WorkflowState) : WorkflowState :=
  { st with url_type := if isYoutubeUrl st.url then "youtube" else "blog" }

/-- Characters of the video-id class `[a-zA-Z0-9_-]`. -/
def idChar (c : Char) : Bool := c.isAlphanum || c = '_' || c = '-'

/-- Try to match one id pattern at the head of `cs`: a recognized URL
prefix followed by exactly eleven id characters. -/
def matchIdAt (cs : List Char) : Option String :=
  youtubePatterns.foldr
    (fun p acc =>
      if p.data.isPrefixOf cs then
        let after := cs.drop p.data.length
        let cand := after.take 11
        if cand.length = 11 ∧ cand.all idChar then some (⟨cand⟩ : String) else acc
      else acc)
    none

/-- Scan for the leftmost position where an id pattern matches. -/
def scanForId : List Char → Option String
  | [] => none
  | c :: rest =>
    match matchIdAt (c :: rest) with
    | some v => some v
    | none => scanForId rest

/-- `extract_youtube_id`: the capture of the leftmost match of the id
regex, or `None`. -/
def extractYoutubeId (url : String) : Option String := scanForId url.data

/-- Outcomes of the external collaborators a pipeline run can consult. -/
structure ExternalCalls where
  /-- Transcript fetch: the segment texts, or the exception message. -/
  transcript : Except String (List String)
  /-- oEmbed title lookup: `some title` on HTTP 200 with a title payload,
  `none` for any failure (non-200, network error, missing field). -/
  oembedTitle : Option String
  /-- Language-model call: the response text, or the exception message. -/
  llm : Except String String

/-- Error message of the id-extraction failure branch. -/
def noIdMsg : String := "Could not extract YouTube video ID from URL"

/-- Placeholder title for the video branch. -/
def ytPlaceholderTitle : String := "YouTube Video Presentation"

/-- Node `extract_youtube_content`. -/
def extractYoutubeContent (ext : ExternalCalls) (st : WorkflowState) : WorkflowState :=
  match extractYoutubeId st.url with
  | none => { st with error := some noIdMsg, raw_content := "" }
  | some _ =>
    match ext.transcript with
    | Except.error e =>
      { st with error := some ("Failed to extract YouTube transcript: " ++ e),
                raw_content := "", title := Json.str ytPlaceholderTitle }
    | Except.ok segs =>
      let fullTranscript := " ".intercalate segs
      let t := match ext.oembedTitle with
        | some t => t
        | none => ytPlaceholderTitle
      { st with title := Json.str t, raw_content := fullTranscript, error := none }

/-- The fragment-filtering stage of `extract_blog_content`: strip each
fragment collected from paragraph, heading and list-item elements and keep
the non-empty ones longer than 20 characters, in order. -/
def blogTextParts : List String → List String
  | [] => []
  | p :: rest =>
    let t := pyStrip p
    if t ≠ "" ∧ 20 < t.length then t :: blogTextParts rest else blogTextParts rest

/-- The joined article text before whitespace collapsing. -/
def blogJoined (frags : List String) : String := "\n\n".intercalate (blogTextParts frags)

/-- Stand-in for the human-readable detail of Python's `JSONDecodeError`;
the pipeline only ever concatenates it into an error message. -/
def jsonDecodeErrorDetail : String := "JSONDecodeError"

/-- The summarization-failure error message. -/
def geminiFailMsg (detail : String) : String :=
  "Failed to refine content with Gemini: " ++ detail

/-- Node `refine_content`: skipped when an error is already recorded or no
raw content exists; otherwise the model response is scanned for a brace
span, which is parsed and re-serialized on success; a parse failure lands
in the surrounding exception handler (error set, raw content as fallback);
a response with no span is stored verbatim. -/
def refineContent (llm : Except String String) (st : WorkflowState) : WorkflowState :=
  if optStrTruthy st.error || st.raw_content == "" then st
  else
    match llm with
    | Except.error e =>
      { st with error := some (geminiFailMsg e), refined_content := st.raw_content }
    | Except.ok responseText =>
      match jsonSpan responseText with
      | some span =>
        match jsonLoads span with
        | some d =>
          { st with refined_content := jsonDumps d,
                    title := (jsonGet d "title").getD st.title,
                    error := none }
        | none =>
          { st with error := some (geminiFailMsg jsonDecodeErrorDetail),
                    refined_content := st.raw_content }
      | none => { st with refined_content := responseText, error := none }

/-- Content slides of the structured branch: one per key point, with
heading, content and position `i + 2`; a non-dict key point makes the
Python attribute access raise (`none`). -/
def pointSlides : Nat → List Json → Option (List Slide)
  | _, [] => some []
  | i, Json.obj kvs :: rest =>
    match pointSlides (i + 1) rest with
    | some tl =>
      some ({ type := "content",
              title := (lookupKV kvs "heading").getD (Json.str ("Point " ++ decRepr (i + 1))),
              content := some ((lookupKV kvs "content").getD (Json.str "")),
              slide_number := some (i + 2) } :: tl)
    | none => none
  | _, _ :: _ => none

/-- The content slide built from key point `p` at 0-based index `k`:
heading as title (with a positional default), content as body, position
`k + 2`. -/
def keyPointSlide (k : Nat) (p : Json) : Slide :=
  { type := "content",
    title := (jsonGet p "heading").getD (Json.str ("Point " ++ decRepr (k + 1))),
    content := some ((jsonGet p "content").getD (Json.str "")),
    slide_number := some (k + 2) }

/-- Greedy paragraph packing of the fallback branch, translated from the
accumulating loop in `generate_presentation`. -/
def packLoop : List String → List String → String → List String
  | [], acc, cur => if cur = "" then acc else acc ++ [pyStrip cur]
  | p :: rest, acc, cur =>
    if cur.length + p.length < 500 then packLoop rest acc (cur ++ p ++ "\n\n")
    else packLoop rest (if cur = "" then acc else acc ++ [pyStrip cur]) (p ++ "\n\n")

/-- Chunks of the fallback branch: split on blank lines, pack greedily. -/
def packChunks (content : String) : List String :=
  packLoop (pySplit content "\n\n") [] ""

/-- Content slides of the fallback branch: one per chunk, body truncated
to 400 characters, position `i + 2`. -/
def chunkSlides : Nat → List String → List Slide
  | _, [] => []
  | i, c :: rest =>
    { type := "content", title := Json.str ("Section " ++ decRepr (i + 1)),
      content := some (Json.str (pySlice 400 c)),
      slide_number := some (i + 2) } :: chunkSlides (i + 1) rest

/-- The fallback slide deck built from unstructured content. -/
def fallbackSlides (st : WorkflowState) : List Slide :=
  let content := if st.refined_content = "" then st.raw_content else st.refined_content
  let chunks := (packChunks content).take 10
  { type := "title", title := st.title, subtitle := some (Json.str "") } ::
    chunkSlides 0 chunks ++
      [{ type := "closing", title := Json.str "Thank You",
         content := some (Json.str ("Generated from: " ++ st.url)) }]

/-- Node `generate_presentation`.  `none` models an uncaught Python
exception (the handler only catches `JSONDecodeError`, so type errors in
the structured branch propagate). -/
def generatePresentation (st : WorkflowState) : Option WorkflowState :=
  if optStrTruthy st.error ∧ st.refined_content = "" then
    some { st with presentation_slides :=
      [{ type := "error", title := Json.str "Error",
         content := some (Json.str (st.error.getD "")) }] }
  else
    match jsonLoads st.refined_content with
    | some d =>
      let titleJ := (jsonGet d "title").getD st.title
      let subtitleComputed : Option Json :=
        if pythonTruthy ((jsonGet d "summary").getD Json.null) then
          jsonSliceVal 200 ((jsonGet d "summary").getD (Json.str ""))
        else some (Json.str "")
      match subtitleComputed with
      | none => none
      | some sub =>
        match (jsonGet d "key_points").getD (Json.arr []) with
        | Json.arr pts =>
          match pointSlides 0 pts with
          | none => none
          | some contentSlides =>
            some { st with presentation_slides :=
              { type := "title", title := titleJ, subtitle := some sub } ::
                contentSlides ++
                  [{ type := "closing", title := Json.str "Thank You",
                     content := some (Json.str ("Presentation generated from: " ++ st.url)) }] }
        | _ => none
    | none => some { st with presentation_slides := fallbackSlides st }

/-- The record returned by `process_url`. -/
structure PipelineResponse where
  success : Bool
  url : String
  url_type : String
  title : Json
  slides : List Slide
  error : Option String
deriving Repr

/-- The single-URL pipeline entry point `process_url` as defined in
workflow.py: route, extract, refine, generate, and package the result.
The blog-branch extractor is HTML-library-driven and passed in abstractly;
the claims below only exercise the video branch or later stages. -/
def processUrl (ext : ExternalCalls) (blogStep : WorkflowState → WorkflowState)
    (url : String) : Option PipelineResponse :=
  let st0 : WorkflowState :=
    { url := url, url_type := "unknown", raw_content := "", title := Json.str "",
      refined_content := "", presentation_slides := [], error := none }
  let st1 := detectUrlType st0
  let st2 := if st1.url_type = "youtube" then extractYoutubeContent ext st1 else blogStep st1
  let st3 := refineContent ext.llm st2
  (generatePresentation st3).map (fun st4 =>
    { success := st4.error = none, url := st4.url, url_type := st4.url_type,
      title := st4.title, slides := st4.presentation_slides, error := st4.error })

/-- Number of positional parameters of `process_url` in workflow.py
(`async def process_url(url: str)`), which has no defaults or varargs. -/
def processUrlParamCount : Nat := 1

/-- Number of positional arguments passed at the call site in server.py
(`process_url(request.url.strip(), request.slide_count)`). -/
def serverCallArgCount : Nat := 2

/-- A Python call with only mandatory positional parameters binds without
raising `TypeError` exactly when the argument count equals the parameter
count. -/
def pythonCallBinds (params args : Nat) : Bool := args = params

/- ## Video assembly (backend/video_gen.py) -/

/-- One image+audio clip pair as assembled by `generate_video`; the visual
rendering and encoding are library work with no bearing on which pairs
survive. -/
structure ClipSpec where
  slide : Slide
  audioPath : String
deriving Repr

/-- The clip-collection loop of `generate_video`: iterate the zipped
(slide, audio path) pairs, skipping any whose audio file is absent.
`onDisk` is the `os.path.exists` oracle. -/
def buildClips (onDisk : String → Bool) : List (Slide × String) → List ClipSpec
  | [] => []
  | (s, a) :: rest =>
    if onDisk a then { slide := s, audioPath := a } :: buildClips onDisk rest
    else buildClips onDisk rest

/-- `generate_video`: `None` when no clip pairs survive, else the output
path of the encoded file. -/
def generateVideo (onDisk : String → Bool) (slides : List Slide)
    (audioPaths : List String) (outputPath : String) : Option String :=
  let clips := buildClips onDisk (slides.zip audioPaths)
  if clips.isEmpty then none else some outputPath

/- ## Narration artifacts (backend/narration.py) -/

/-- The audio artifact filename of `generate_narrated_audio`:
`slide_{idx+1}_{timestamp}.{fmt}` with a whole-second timestamp. -/
def audioFileName (idx : Nat) (timestamp : Nat) (fmt : String) : String :=
  "slide_" ++ decRepr (idx + 1) ++ "_" ++ decRepr timestamp ++ "." ++ fmt

/-- One narration invocation: which request it belongs to, the slide index
within the request, the whole-second timestamp at write time, and the audio
format.  The filename depends only on the last three. -/
structure NarrationCall where
  request : Nat
  slideIdx : Nat
  timestamp : Nat
  fmt : String
deriving DecidableEq, Repr

/-- The filename an invocation writes. -/
def callFileName (c : NarrationCall) : String :=
  audioFileName c.slideIdx c.timestamp c.fmt

/- ## Concrete sample inputs used by witnesses and counterexamples -/

/-- A state as it leaves a successful extraction: non-empty raw content,
no error, nothing refined yet. -/
def sampleState : WorkflowState :=
  { url := "u", url_type := "blog", raw_content := "x", title := Json.str "t",
    refined_content := "", presentation_slides := [], error := none }

/-- A model response that contains a brace span but is not valid JSON. -/
def badJsonResponse : String := "\x7bnot json\x7d"

/-- A fragment of exactly 20 characters. -/
def frag20 : String := "aaaaaaaaaaaaaaaaaaaa"

/-- A single paragraph of 501 characters. -/
def bigPara : String := ⟨List.replicate 501 'a'⟩

/-- A well-formed summarizer reply: title, summary, one key point. -/
def structuredSample : String :=
  "\x7b\"title\": \"T\", \"summary\": \"S\", \"key_points\": [\x7b\"heading\": \"H\", \"content\": \"c\"\x7d]\x7d"

/-- A state whose refined content is the structured sample. -/
def structuredState : WorkflowState :=
  { sampleState with refined_content := structuredSample }

/-- A state whose refined content is not valid JSON. -/
def unstructuredState : WorkflowState :=
  { sampleState with refined_content := "plain text" }

/-- External outcomes for runs that never reach an external call. -/
def unusedExternalCalls : ExternalCalls :=
  { transcript := Except.ok [], oembedTitle := none, llm := Except.ok "" }

/-- Digit value of a character, inverse of `digitChar` on digits. -/
def digitVal (c : Char) : Nat := c.toNat - 48

/-- The number denoted by a list of decimal digit characters. -/
def valOfDigits (cs : List Char) : Nat := cs.foldl (fun a c => a * 10 + digitVal c) 0

/- ## Lemmas about the decimal printer -/

theorem digitChar_bounds : ∀ m, m < 10 → '0' ≤ digitChar m ∧ digitChar m ≤ '9' := by decide

theorem digitVal_digitChar : ∀ m, m < 10 → digitVal (digitChar m) = m := by decide

theorem decReprAux_digits :
    ∀ f n, n < f → ∀ c ∈ decReprAux f n, '0' ≤ c ∧ c ≤ '9' := by
  intro f
  induction f with
  | zero => intro n hn; exact absurd hn (Nat.not_lt_zero n)
  | succ f ih =>
    intro n _ c hc
    rw [decReprAux] at hc
    by_cases h10 : n < 10
    · rw [if_pos h10] at hc
      rw [List.mem_singleton] at hc
      subst hc
      exact digitChar_bounds n h10
    · rw [if_neg h10] at hc
      rcases List.mem_append.1 hc with hc | hc
      · have hlt : n / 10 < f := by
          have h1 : n / 10 < n := Nat.div_lt_self (by omega) (by omega)
          omega
        exact ih (n / 10) hlt c hc
      · rw [List.mem_singleton] at hc
        subst hc
        exact digitChar_bounds (n % 10) (Nat.mod_lt n (by omega))

theorem valOfDigits_append_one (cs : List Char) (c : Char) :
    valOfDigits (cs ++ [c]) = valOfDigits cs * 10 + digitVal c := by
  unfold valOfDigits
  rw [List.foldl_append]
  rfl

theorem decReprAux_val : ∀ f n, n < f → valOfDigits (decReprAux f n) = n := by
  intro f
  induction f with
  | zero => intro n hn; exact absurd hn (Nat.not_lt_zero n)
  | succ f ih =>
    intro n hn
    rw [decReprAux]
    by_cases h10 : n < 10
    · rw [if_pos h10]
      show valOfDigits [digitChar n] = n
      have h0 : valOfDigits [digitChar n] = 0 * 10 + digitVal (digitChar n) := rfl
      rw [h0, digitVal_digitChar n h10]
      omega
    · rw [if_neg h10]
      rw [valOfDigits_append_one]
      have hlt : n / 10 < f := by
        have h1 : n / 10 < n := Nat.div_lt_self (by omega) (by omega)
        omega
      rw [ih (n / 10) hlt, digitVal_digitChar (n % 10) (Nat.mod_lt n (by omega))]
      omega

theorem decRepr_inj {m n : Nat} (h : decRepr m = decRepr n) : m = n := by
  have hd : decReprAux (m + 1) m = decReprAux (n + 1) n := congrArg String.data h
  have hm := decReprAux_val (m + 1) m (by omega)
  have hn := decReprAux_val (n + 1) n (by omega)
  rw [hd, hn] at hm
  omega

theorem decRepr_digits (n : Nat) : ∀ c ∈ (decRepr n).data, '0' ≤ c ∧ c ≤ '9' :=
  decReprAux_digits (n + 1) n (by omega)

theorem digit_ne_underscore {c : Char} (h : '0' ≤ c ∧ c ≤ '9') : c ≠ '_' := by
  intro he
  subst he
  revert h
  decide

theorem digit_ne_dot {c : Char} (h : '0' ≤ c ∧ c ≤ '9') : c ≠ '.' := by
  intro he
  subst he
  revert h
  decide

theorem append_sep_split {sep : Char} :
    ∀ (a b s t : List Char), (∀ x ∈ a, x ≠ sep) → (∀ x ∈ b, x ≠ sep) →
      a ++ sep :: s = b ++ sep :: t → a = b ∧ s = t := by
  intro a
  induction a with
  | nil =>
    intro b s t _ hb he
    cases b with
    | nil =>
      rw [List.nil_append, List.nil_append] at he
      exact ⟨rfl, (List.cons.injEq _ _ _ _ ▸ he).2⟩
    | cons y ys =>
      rw [List.nil_append, List.cons_append] at he
      have h1 : sep = y := (List.cons.injEq _ _ _ _ ▸ he).1
      exact absurd h1.symm (hb y (by simp))
  | cons x xs ih =>
    intro b s t ha hb he
    cases b with
    | nil =>
      rw [List.cons_append, List.nil_append] at he
      have h1 : x = sep := (List.cons.injEq _ _ _ _ ▸ he).1
      exact absurd h1 (ha x (by simp))
    | cons y ys =>
      rw [List.cons_append, List.cons_append] at he
      have h1 : x = y := (List.cons.injEq _ _ _ _ ▸ he).1
      have h2 : xs ++ sep :: s = ys ++ sep :: t := (List.cons.injEq _ _ _ _ ▸ he).2
      obtain ⟨h3, h4⟩ := ih ys s t (fun z hz => ha z (by simp [hz])) (fun z hz => hb z (by simp [hz])) h2
      exact ⟨by rw [h1, h3], h4⟩

/-- Helper: the underscore-separated data decomposition of a filename. -/
theorem audioFileName_data (idx timestamp : Nat) (fmt : String) :
    (audioFileName idx timestamp fmt).data =
      "slide_".data ++
        ((decRepr (idx + 1)).data ++ '_' :: ((decRepr timestamp).data ++ '.' :: fmt.data)) := by
  simp [audioFileName, String.data_append, List.append_assoc]

/-- C10 (amended): two narration invocations write the same audio filename
exactly when their slide index, whole-second timestamp and audio format all
coincide; in particular distinct slide indices within one request never
collide, while invocations from different requests in the same second with
the same slide index and format do. -/
theorem audioFileName_injective (i1 t1 : Nat) (f1 : String) (i2 t2 : Nat) (f2 : String)
    (h : audioFileName i1 t1 f1 = audioFileName i2 t2 f2) :
    i1 = i2 ∧ t1 = t2 ∧ f1 = f2 := by
  have hd := congrArg String.data h
  rw [audioFileName_data, audioFileName_data] at hd
  have hc := List.append_cancel_left hd
  have hno1 : ∀ x ∈ (decRepr (i1 + 1)).data, x ≠ '_' :=
    fun x hx => digit_ne_underscore (decRepr_digits (i1 + 1) x hx)
  have hno2 : ∀ x ∈ (decRepr (i2 + 1)).data, x ≠ '_' :=
    fun x hx => digit_ne_underscore (decRepr_digits (i2 + 1) x hx)
  obtain ⟨e1, e2⟩ := append_sep_split _ _ _ _ hno1 hno2 hc
  have hi : i1 + 1 = i2 + 1 := decRepr_inj (String.ext e1)
  have hno3 : ∀ x ∈ (decRepr t1).data, x ≠ '.' :=
    fun x hx => digit_ne_dot (decRepr_digits t1 x hx)
  have hno4 : ∀ x ∈ (decRepr t2).data, x ≠ '.' :=
    fun x hx => digit_ne_dot (decRepr_digits t2 x hx)
  obtain ⟨e3, e4⟩ := append_sep_split _ _ _ _ hno3 hno4 e2
  exact ⟨by omega, decRepr_inj (String.ext e3), String.ext e4⟩

/-- Witness for C10's amended theorem at a concrete filename equation. -/
theorem audioFileName_injective_witness :
    audioFileName 0 5 "mp3" = audioFileName 0 5 "mp3" ∧
      (0 = 0 ∧ 5 = 5 ∧ ("mp3" : String) = "mp3") :=
  ⟨rfl, audioFileName_injective 0 5 "mp3" 0 5 "mp3" rfl⟩

/-- C10 counterexample: two distinct narration invocations — same slide
index in two different requests, written in the same whole second — produce
the same audio filename, so one file overwrites the other. -/
theorem narration_filename_collision :
    (⟨0, 0, 1700000000, "mp3"⟩ : NarrationCall) ≠ ⟨1, 0, 1700000000, "mp3"⟩ ∧
      callFileName ⟨0, 0, 1700000000, "mp3"⟩ = callFileName ⟨1, 0, 1700000000, "mp3"⟩ :=
  ⟨by decide, rfl⟩

/-- C4: the server call site passes two positional arguments
(`process_url(request.url.strip(), request.slide_count)`) to a pipeline
entry point defined with a single positional parameter and no defaults, so
the call raises `TypeError` instead of returning the response record: the
entry point does not accept a target slide count. -/
theorem processUrl_call_does_not_bind :
    pythonCallBinds processUrlParamCount serverCallArgCount = false := rfl

/-- Helper: the clip loop keeps exactly the zipped pairs whose audio file
exists, in order. -/
theorem buildClips_eq_filter (onDisk : String → Bool) :
    ∀ l : List (Slide × String),
      buildClips onDisk l =
        (l.filter (fun p => onDisk p.2)).map (fun p => { slide := p.1, audioPath := p.2 }) := by
  intro l
  induction l with
  | nil => rfl
  | cons hd tl ih =>
    obtain ⟨s, a⟩ := hd
    by_cases h : onDisk a
    · simp [buildClips, List.filter_cons, h, ih]
    · simp [buildClips, List.filter_cons, h, ih]

/-- C8: video assembly only considers the overlapping prefix of the slide
and audio-path lists (their zip), keeps exactly the pairs whose audio path
exists — skipping, never raising — and returns a null result exactly when
no pair survives. -/
theorem generateVideo_pairs (onDisk : String → Bool) (slides : List Slide)
    (audioPaths : List String) (outputPath : String) :
    buildClips onDisk (slides.zip audioPaths) =
        ((slides.zip audioPaths).filter (fun p => onDisk p.2)).map
          (fun p => { slide := p.1, audioPath := p.2 }) ∧
      (slides.zip audioPaths).length = min slides.length audioPaths.length ∧
      (generateVideo onDisk slides audioPaths outputPath = none ↔
        ∀ p ∈ slides.zip audioPaths, onDisk p.2 = false) := by
  refine ⟨buildClips_eq_filter onDisk _, List.length_zip _ _, ?_⟩
  constructor
  · intro h p hp
    rw [generateVideo] at h
    by_cases he : (buildClips onDisk (slides.zip audioPaths)).isEmpty
    · rw [buildClips_eq_filter] at he
      rw [List.isEmpty_iff, List.map_eq_nil_iff, List.filter_eq_nil_iff] at he
      simpa using he p hp
    · rw [if_neg he] at h
      exact absurd h (by simp)
  · intro h
    rw [generateVideo, if_pos]
    rw [buildClips_eq_filter, List.isEmpty_iff, List.map_eq_nil_iff, List.filter_eq_nil_iff]
    intro p hp
    simp [h p hp]

/-- C9 (amended): the article-extraction filter keeps, in order, exactly
the stripped fragments strictly longer than 20 characters — so fragments
of stripped length 21 or more survive, fragments of length 20 or less are
discarded — and the survivors are joined with blank-line separators. -/
theorem blogTextParts_keeps_over_20 (frags : List String) :
    blogTextParts frags = (frags.map pyStrip).filter (fun t => 20 < t.length) ∧
      blogJoined frags =
        "\n\n".intercalate ((frags.map pyStrip).filter (fun t => 20 < t.length)) := by
  have h1 : ∀ fs : List String,
      blogTextParts fs = (fs.map pyStrip).filter (fun t => 20 < t.length) := by
    intro fs
    induction fs with
    | nil => rfl
    | cons p rest ih =>
      by_cases h : 20 < (pyStrip p).length
      · have hne : pyStrip p ≠ "" := by
          intro he
          rw [he] at h
          exact absurd h (by decide)
        simp [blogTextParts, List.filter_cons, h, hne, ih]
      · simp [blogTextParts, List.filter_cons, h, ih]
  exact ⟨h1 frags, by rw [blogJoined, h1 frags]⟩

/-- C9 counterexample: a fully stripped fragment of exactly 20 characters
is discarded by the filter, contradicting the claim that every fragment of
length 20 or more survives. -/
theorem blog_fragment_of_20_dropped :
    frag20.length = 20 ∧ pyStrip frag20 = frag20 ∧ blogTextParts [frag20] = [] :=
  ⟨rfl, rfl, rfl⟩

/-- Dropping trailing whitespace ignores an appended blank line. -/
theorem dropTrailWs_append_nn (cs : List Char) :
    dropTrailWs (cs ++ ['\n', '\n']) = dropTrailWs cs := by
  simp [dropTrailWs, List.reverse_append, List.dropWhile_cons, pyWs]

/-- Stripping ignores an appended blank line. -/
theorem stripList_append_nn (cs : List Char) :
    stripList (cs ++ ['\n', '\n']) = stripList cs := by
  rw [stripList, dropTrailWs_append_nn, stripList]

/-- Stripping ignores an appended `"\n\n"`. -/
theorem pyStrip_append_nn (s : String) : pyStrip (s ++ "\n\n") = pyStrip s := by
  apply String.ext
  show stripList (s ++ "\n\n").data = stripList s.data
  rw [String.data_append]
  exact stripList_append_nn s.data

/-- Stripping never lengthens a character list. -/
theorem stripList_length_le (cs : List Char) : (stripList cs).length ≤ cs.length := by
  have h1 : (stripList cs).length ≤ (dropTrailWs cs).length :=
    (List.dropWhile_sublist pyWs).length_le
  have h2 : (dropTrailWs cs).length ≤ cs.length := by
    rw [dropTrailWs, List.length_reverse]
    have := (List.dropWhile_sublist (l := cs.reverse) pyWs).length_le
    rw [List.length_reverse] at this
    exact this
  omega

/-- Stripping never lengthens a string. -/
theorem pyStrip_length_le (s : String) : (pyStrip s).length ≤ s.length :=
  stripList_length_le s.data

/-- Invariant of the greedy packing loop: every emitted chunk is short, or
is a single stripped paragraph. -/
theorem packLoop_bound (paras0 : List String) :
    ∀ (ps : List String) (acc : List String) (cur : String),
      (∀ p ∈ ps, p ∈ paras0) →
      (∀ c ∈ acc, c.length ≤ 500 ∨ ∃ p ∈ paras0, c = pyStrip (p ++ "\n\n")) →
      (cur = "" ∨ ∃ cur0, cur = cur0 ++ "\n\n" ∧ (cur0.length ≤ 499 ∨ cur0 ∈ paras0)) →
      ∀ c ∈ packLoop ps acc cur, c.length ≤ 500 ∨ ∃ p ∈ paras0, c = pyStrip (p ++ "\n\n") := by
  have flushOk : ∀ (acc : List String) (cur : String),
      (∀ c ∈ acc, c.length ≤ 500 ∨ ∃ p ∈ paras0, c = pyStrip (p ++ "\n\n")) →
      (cur = "" ∨ ∃ cur0, cur = cur0 ++ "\n\n" ∧ (cur0.length ≤ 499 ∨ cur0 ∈ paras0)) →
      ∀ c ∈ (if cur = "" then acc else acc ++ [pyStrip cur]),
        c.length ≤ 500 ∨ ∃ p ∈ paras0, c = pyStrip (p ++ "\n\n") := by
    intro acc cur hacc hcur c hc
    by_cases hz : cur = ""
    · rw [if_pos hz] at hc
      exact hacc c hc
    · rw [if_neg hz] at hc
      rcases List.mem_append.1 hc with hc | hc
      · exact hacc c hc
      · rw [List.mem_singleton] at hc
        subst hc
        rcases hcur with hcur | ⟨cur0, heq, hcase⟩
        · exact absurd hcur hz
        · subst heq
          rcases hcase with hlen | hmem
          · left
            rw [pyStrip_append_nn]
            have := pyStrip_length_le cur0
            omega
          · right
            exact ⟨cur0, hmem, rfl⟩
  intro ps
  induction ps with
  | nil =>
    intro acc cur _ hacc hcur c hc
    rw [packLoop] at hc
    exact flushOk acc cur hacc hcur c hc
  | cons p rest ih =>
    intro acc cur hps hacc hcur c hc
    rw [packLoop] at hc
    by_cases hfit : cur.length + p.length < 500
    · rw [if_pos hfit] at hc
      refine ih acc (cur ++ p ++ "\n\n") (fun q hq => hps q (by simp [hq])) hacc ?_ c hc
      right
      refine ⟨cur ++ p, rfl, Or.inl ?_⟩
      rw [String.length_append]
      omega
    · rw [if_neg hfit] at hc
      refine ih _ (p ++ "\n\n") (fun q hq => hps q (by simp [hq])) ?_ ?_ c hc
      · exact flushOk acc cur hacc hcur
      · right
        exact ⟨p, rfl, Or.inr (hps p (by simp))⟩

/-- C7 (amended): every chunk produced by the fallback packing is at most
500 characters long, except that a chunk holding one oversized paragraph
is emitted whole: such a chunk is the stripped form of a single
blank-line-separated paragraph of the content. -/
theorem packChunks_le_500_or_single_para (content : String) :
    ∀ c ∈ packChunks content,
      c.length ≤ 500 ∨ ∃ p ∈ pySplit content "\n\n", c = pyStrip (p ++ "\n\n") := by
  intro c hc
  refine packLoop_bound (pySplit content "\n\n") (pySplit content "\n\n") [] ""
    (fun p hp => hp) (fun d hd => absurd hd (List.not_mem_nil d)) (Or.inl rfl) c ?_
  rw [packChunks] at hc
  exact hc

/-- Witness for C7's amended theorem at a concrete packing. -/
theorem packChunks_bound_witness :
    "ab" ∈ packChunks "ab" ∧
      ("ab".length ≤ 500 ∨ ∃ p ∈ pySplit "ab" "\n\n", "ab" = pyStrip (p ++ "\n\n")) :=
  ⟨by decide, packChunks_le_500_or_single_para "ab" "ab" (by decide)⟩

set_option maxRecDepth 20000 in
/-- C7 counterexample: a single 501-character paragraph is emitted as one
chunk of 501 characters, exceeding the claimed 500-character bound. -/
theorem packChunks_chunk_over_500 :
    packChunks bigPara = [bigPara] ∧ 500 < bigPara.length := by
  constructor
  · decide
  · decide

/-- Serialization of any JSON value is a non-empty string. -/
theorem jsonDumps_ne_empty (j : Json) : jsonDumps j ≠ "" := by
  cases j with
  | null => decide
  | bool b => cases b <;> decide
  | num c r =>
    intro h
    have hd := congrArg String.data h
    simp [jsonDumps] at hd
  | str s =>
    intro h
    have hd := congrArg String.data h
    simp [jsonDumps, dumpString] at hd
  | arr xs =>
    intro h
    have hd := congrArg String.data h
    simp [jsonDumps, String.data_append] at hd
  | obj ms =>
    intro h
    have hd := congrArg String.data h
    simp [jsonDumps, String.data_append] at hd

/-- C1 (amended): when the summarization step actually runs and the model
response contains a greedy brace span whose JSON parse fails, the step
sets the pipeline error state and stores the raw extracted text — not the
response — as refined content; the response is stored verbatim with no
error only when it contains no brace span at all. -/
theorem refine_parse_failure_sets_error (st : WorkflowState) (txt : String)
    (h1 : st.error = none) (h2 : st.raw_content ≠ "") :
    (∀ span, jsonSpan txt = some span → jsonLoads span = none →
        refineContent (Except.ok txt) st =
          { st with error := some (geminiFailMsg jsonDecodeErrorDetail),
                    refined_content := st.raw_content }) ∧
      (jsonSpan txt = none →
        refineContent (Except.ok txt) st = { st with refined_content := txt, error := none }) := by
  have hguard : (optStrTruthy st.error || st.raw_content == "") = false := by
    rw [h1]
    simp [optStrTruthy, h2]
  constructor
  · intro span hs hl
    rw [refineContent, if_neg (by rw [hguard]; exact Bool.false_ne_true)]
    simp only [hs, hl]
  · intro hs
    rw [refineContent, if_neg (by rw [hguard]; exact Bool.false_ne_true)]
    simp only [hs]

/-- C1 counterexample: on a response that is one non-JSON brace span, the
refined content is not the response text and the error state is set, so
the claimed verbatim-no-error behavior does not hold on parse failure. -/
theorem refine_parse_failure_not_verbatim :
    (refineContent (Except.ok badJsonResponse) sampleState).refined_content ≠ badJsonResponse ∧
      (refineContent (Except.ok badJsonResponse) sampleState).error ≠ none :=
  ⟨by decide, by decide⟩

/-- Witness for C1's amended theorem at the concrete failing response. -/
theorem refine_parse_failure_sets_error_witness :
    refineContent (Except.ok badJsonResponse) sampleState =
      { sampleState with error := some (geminiFailMsg jsonDecodeErrorDetail),
                         refined_content := sampleState.raw_content } :=
  (refine_parse_failure_sets_error sampleState badJsonResponse rfl (by decide)).1
    badJsonResponse rfl rfl

/-- C5 (amended): after the summarization step runs on a state with no
prior error, non-empty raw content and a non-empty model response, refined
content is always present; when an error is recorded the refined content
is the raw extracted text — so on failure the state carries both an error
and refined content (the double fallback), not exactly one of the two. -/
theorem refine_post_state (o : Except String String) (st : WorkflowState)
    (h1 : st.error = none) (h2 : st.raw_content ≠ "")
    (h3 : ∀ t, o = Except.ok t → t ≠ "") :
    (refineContent o st).refined_content ≠ "" ∧
      ((refineContent o st).error ≠ none →
        (refineContent o st).refined_content = st.raw_content) := by
  have hguard : (optStrTruthy st.error || st.raw_content == "") = false := by
    rw [h1]
    simp [optStrTruthy, h2]
  cases o with
  | error e =>
    rw [refineContent, if_neg (by rw [hguard]; exact Bool.false_ne_true)]
    exact ⟨h2, fun _ => rfl⟩
  | ok txt =>
    have htxt : txt ≠ "" := h3 txt rfl
    rw [refineContent, if_neg (by rw [hguard]; exact Bool.false_ne_true)]
    split
    · split
      · exact ⟨jsonDumps_ne_empty _, fun hfalse => absurd rfl hfalse⟩
      · exact ⟨h2, fun _ => rfl⟩
    · exact ⟨htxt, fun hfalse => absurd rfl hfalse⟩

/-- C5 counterexample: a model-call exception on a state with non-empty
raw content leaves both an error and non-empty refined content, violating
the claimed exactly-one invariant. -/
theorem refine_error_with_content :
    (refineContent (Except.error "boom") sampleState).error ≠ none ∧
      (refineContent (Except.error "boom") sampleState).refined_content ≠ "" :=
  ⟨by decide, by decide⟩

/-- Witness for C5's amended theorem at a concrete successful model call. -/
theorem refine_post_state_witness :
    (refineContent (Except.ok "hello") sampleState).refined_content ≠ "" :=
  (refine_post_state (Except.ok "hello") sampleState rfl (by decide)
    (by intro t ht; injection ht with h; subst h; decide)).1

/-- The summarization node passes an error-carrying state through. -/
theorem refineContent_pass_through (llm : Except String String) (st : WorkflowState)
    (h : optStrTruthy st.error = true) : refineContent llm st = st := by
  rw [refineContent.eq_def,
    if_pos (show (optStrTruthy st.error || st.raw_content == "") = true by rw [h]; rfl)]

/-- The slide builder on an error state with no refined content emits one
error slide carrying the message. -/
theorem generatePresentation_error_slide (st : WorkflowState)
    (h1 : optStrTruthy st.error = true) (h2 : st.refined_content = "") :
    generatePresentation st =
      some { st with presentation_slides :=
        [{ type := "error", title := Json.str "Error",
           content := some (Json.str (st.error.getD "")) }] } := by
  rw [generatePresentation, if_pos ⟨h1, h2⟩]

/-- C3: on any URL that matches a YouTube pattern but from which no
11-character video id is extractable, extraction records the error in the
pipeline state instead of raising, and the pipeline still returns a full
response record to the caller: a failed run with a single error slide. -/
theorem pipeline_no_video_id_returns_response (ext : ExternalCalls)
    (blogStep : WorkflowState → WorkflowState) (url : String)
    (hyt : isYoutubeUrl url = true) (hid : extractYoutubeId url = none) :
    processUrl ext blogStep url =
      some { success := false, url := url, url_type := "youtube", title := Json.str "",
             slides := [{ type := "error", title := Json.str "Error",
                          content := some (Json.str noIdMsg) }],
             error := some noIdMsg } := by
  simp only [processUrl, detectUrlType, hyt, if_true, extractYoutubeContent, hid]
  rw [refineContent_pass_through ext.llm
    { url := url, url_type := "youtube", raw_content := "", title := Json.str "",
      refined_content := "", presentation_slides := [], error := some noIdMsg } rfl]
  rw [generatePresentation_error_slide
    { url := url, url_type := "youtube", raw_content := "", title := Json.str "",
      refined_content := "", presentation_slides := [], error := some noIdMsg } rfl rfl]
  rfl

/-- Witness for C3 at a concrete pattern-matching URL with no id. -/
theorem pipeline_no_video_id_witness :
    processUrl unusedExternalCalls id "https://youtu.be/" =
      some { success := false, url := "https://youtu.be/", url_type := "youtube",
             title := Json.str "",
             slides := [{ type := "error", title := Json.str "Error",
                          content := some (Json.str noIdMsg) }],
             error := some noIdMsg } :=
  pipeline_no_video_id_returns_response unusedExternalCalls id "https://youtu.be/"
    (by decide) (by decide)

/-- The fallback content slides are one per chunk. -/
theorem chunkSlides_length : ∀ (chunks : List String) (i : Nat),
    (chunkSlides i chunks).length = chunks.length := by
  intro chunks
  induction chunks with
  | nil => intro i; rfl
  | cons c rest ih =>
    intro i
    show (chunkSlides i (c :: rest)).length = (c :: rest).length
    rw [chunkSlides]
    simp [ih (i + 1)]

/-- Every fallback content slide's body is a 400-character truncation of
some chunk. -/
theorem chunkSlides_mem : ∀ (chunks : List String) (i : Nat) (sl : Slide),
    sl ∈ chunkSlides i chunks →
      ∃ c ∈ chunks, sl.content = some (Json.str (pySlice 400 c)) := by
  intro chunks
  induction chunks with
  | nil => intro i sl hsl; exact absurd hsl (List.not_mem_nil sl)
  | cons c rest ih =>
    intro i sl hsl
    rw [chunkSlides] at hsl
    rcases List.mem_cons.1 hsl with h | h
    · exact ⟨c, by simp, by rw [h]⟩
    · obtain ⟨c', hc', hbody⟩ := ih (i + 1) sl h
      exact ⟨c', by simp [hc'], hbody⟩

/-- Truncation really bounds the length. -/
theorem pySlice_length_le (n : Nat) (s : String) : (pySlice n s).length ≤ n := by
  show (s.data.take n).length ≤ n
  rw [List.length_take]
  omega

/-- C6: on any refined content that is not valid JSON, slide building
succeeds and emits at most 1 + 10 + 1 = 12 slides, and every content
slide's body is at most 400 characters long. -/
theorem generatePresentation_fallback_bounds (st : WorkflowState)
    (h : jsonLoads st.refined_content = none) :
    ∃ st', generatePresentation st = some st' ∧
      st'.presentation_slides.length ≤ 12 ∧
      ∀ sl ∈ st'.presentation_slides, sl.type = "content" →
        ∃ body, sl.content = some (Json.str body) ∧ body.length ≤ 400 := by
  by_cases hguard : optStrTruthy st.error ∧ st.refined_content = ""
  · refine ⟨_, by rw [generatePresentation, if_pos hguard], by simp, ?_⟩
    intro sl hsl htype
    simp only [List.mem_singleton] at hsl
    subst hsl
    exact absurd htype (by decide : ¬("error" : String) = "content")
  · rw [generatePresentation, if_neg hguard, h]
    refine ⟨_, rfl, ?_, ?_⟩
    · show (fallbackSlides st).length ≤ 12
      simp only [fallbackSlides, List.length_cons, List.length_append,
        chunkSlides_length, List.length_nil]
      have hle := List.length_take_le 10
        (packChunks (if st.refined_content = "" then st.raw_content else st.refined_content))
      omega
    · show ∀ sl ∈ fallbackSlides st, sl.type = "content" →
        ∃ body, sl.content = some (Json.str body) ∧ body.length ≤ 400
      intro sl hsl htype
      simp only [fallbackSlides] at hsl
      rcases List.mem_cons.1 hsl with hsl | hsl
      · subst hsl
        exact absurd htype (by decide : ¬("title" : String) = "content")
      · rcases List.mem_append.1 hsl with hsl | hsl
        · obtain ⟨c, _, hbody⟩ := chunkSlides_mem _ 0 sl hsl
          exact ⟨pySlice 400 c, hbody, pySlice_length_le 400 c⟩
        · rw [List.mem_singleton] at hsl
          subst hsl
          exact absurd htype (by decide : ¬("closing" : String) = "content")

/-- Witness for C6 at a concrete non-JSON refined content. -/
theorem generatePresentation_fallback_bounds_witness :
    ∃ st', generatePresentation unstructuredState = some st' ∧
      st'.presentation_slides.length ≤ 12 ∧
      ∀ sl ∈ st'.presentation_slides, sl.type = "content" →
        ∃ body, sl.content = some (Json.str body) ∧ body.length ≤ 400 :=
  generatePresentation_fallback_bounds unstructuredState rfl

/-- Structured content slides: on all-object key points the builder
succeeds and produces, at each index, the content slide of that key point
with position index-plus-two. -/
theorem pointSlides_all_obj :
    ∀ (pts : List Json), (∀ p ∈ pts, ∃ m, p = Json.obj m) →
      ∀ i, ∃ l, pointSlides i pts = some l ∧ l.length = pts.length ∧
        ∀ j p, pts.get? j = some p → l.get? j = some (keyPointSlide (i + j) p) := by
  intro pts
  induction pts with
  | nil =>
    intro _ i
    exact ⟨[], rfl, rfl, fun j p hp => by simp at hp⟩
  | cons q rest ih =>
    intro hobj i
    obtain ⟨m, hm⟩ := hobj q (by simp)
    subst hm
    obtain ⟨l, hl, hlen, hidx⟩ := ih (fun p hp => hobj p (by simp [hp])) (i + 1)
    refine ⟨keyPointSlide i (Json.obj m) :: l, ?_, by simp [hlen], ?_⟩
    · rw [pointSlides, hl]
      rfl
    · intro j p hp
      cases j with
      | zero =>
        injection hp with h
        subst h
        rfl
      | succ j' =>
        have h2 := hidx j' p hp
        rw [show i + (j' + 1) = i + 1 + j' by omega]
        exact h2

/-- The subtitle computation on a string summary is its 200-character
truncation, whether or not the summary is empty (falsy). -/
theorem subtitle_of_str (s : String) :
    (if pythonTruthy (Json.str s) = true then jsonSliceVal 200 (Json.str s)
      else some (Json.str "")) = some (Json.str (pySlice 200 s)) := by
  by_cases hse : s = ""
  · subst hse
    rw [if_neg (by decide)]
    rfl
  · rw [if_pos (by simp [pythonTruthy, hse])]
    rfl

/-- C2: on refined content that parses to a JSON object with a string
title, a string summary and a list of key-point objects, slide building
emits exactly one title slide (subtitle: the summary truncated to 200
characters), one content slide per key point in order with positions
2 to N + 1, and one closing slide — 1 + N + 1 slides in total. -/
theorem generatePresentation_structured (st : WorkflowState)
    (kvs : List (String × Json)) (t s : String) (pts : List Json)
    (hparse : jsonLoads st.refined_content = some (Json.obj kvs))
    (ht : lookupKV kvs "title" = some (Json.str t))
    (hsum : lookupKV kvs "summary" = some (Json.str s))
    (hk : lookupKV kvs "key_points" = some (Json.arr pts))
    (hobj : ∀ p ∈ pts, ∃ m, p = Json.obj m) :
    ∃ cs, generatePresentation st =
        some { st with presentation_slides :=
          { type := "title", title := Json.str t,
            subtitle := some (Json.str (pySlice 200 s)) } ::
            cs ++ [{ type := "closing", title := Json.str "Thank You",
                     content := some (Json.str ("Presentation generated from: " ++ st.url)) }] } ∧
      cs.length = pts.length ∧
      ∀ j p, pts.get? j = some p → cs.get? j = some (keyPointSlide j p) := by
  have hne : st.refined_content ≠ "" := by
    intro he
    rw [he] at hparse
    exact Option.noConfusion hparse
  obtain ⟨l, hl, hlen, hidx⟩ := pointSlides_all_obj pts hobj 0
  refine ⟨l, ?_, hlen, ?_⟩
  · rw [generatePresentation, if_neg (fun hg => hne hg.2), hparse]
    simp only [jsonGet, ht, hsum, hk, Option.getD_some]
    rw [subtitle_of_str, hl]
  · intro j p hp
    have h2 := hidx j p hp
    rw [show (0 : Nat) + j = j by omega] at h2
    exact h2

/-- Witness for C2 at a concrete structured summarizer reply with one key
point. -/
theorem generatePresentation_structured_witness :
    ∃ cs, generatePresentation structuredState =
        some { structuredState with presentation_slides :=
          { type := "title", title := Json.str "T",
            subtitle := some (Json.str (pySlice 200 "S")) } ::
            cs ++ [{ type := "closing", title := Json.str "Thank You",
                     content := some (Json.str ("Presentation generated from: " ++
                       structuredState.url)) }] } ∧
      cs.length = [Json.obj [("heading", Json.str "H"), ("content", Json.str "c")]].length ∧
      ∀ j p, [Json.obj [("heading", Json.str "H"), ("content", Json.str "c")]].get? j = some p →
        cs.get? j = some (keyPointSlide j p) :=
  generatePresentation_structured structuredState
    [("title", Json.str "T"), ("summary", Json.str "S"),
     ("key_points", Json.arr [Json.obj [("heading", Json.str "H"), ("content", Json.str "c")]])]
    "T" "S" [Json.obj [("heading", Json.str "H"), ("content", Json.str "c")]]
    rfl rfl rfl rfl
    (by intro p hp; rw [List.mem_singleton] at hp; exact ⟨_, hp⟩)
